import Mathlib

/-!
Verification development for the Google-Sheets-to-Smartsheet transfer engine.

The definitions below are a shallow embedding of the TypeScript sources:
* `src/src/google/sheets.ts` — cell classification (`processSheetData` per-cell
  body, `extractImageFromFormula`, `extractHyperlinkFromFormula`,
  `extractEmbeddedImage`, `extractDriveImageFromValue`) and header-row scoring
  (`scoreHeaderRow`).
* `src/unnamed/part_008` (the Smartsheet API service consistent with the
  callers in `transfer.ts`) — `addRowsToSheet`, `uploadImage`.
* `src/src/services/transfer.ts` — `processImageQueue`,
  `convertRowToSmartsheet`, the column-mapping rewrite inside
  `performActualTransfer`, the batch loop, `executeTransfer`, `cancelTransfer`.

JavaScript regular expressions are embedded as bespoke deterministic matchers:
every repetition class in the source regexes excludes its follow-up delimiter,
so leftmost-first search plus greedy class consumption is exact.  Opaque
platform semantics (`Number(...)` parsing, the curated header-vocabulary regex
set) are passed in as function parameters, and theorems quantify over them.
Network and database effects are modelled by explicit state passing and by
oracle parameters giving each call's outcome; console logging, job-log
persistence and informational lookups (`getSpreadsheetInfo`,
`updateTransferJobInfo`, `addJobLog`) are elided because they do not affect
any state the claims mention.
-/

namespace G2S

/-! ## Character and string helpers (JS regex building blocks) -/

/-- JS whitespace: the ECMAScript WhiteSpace and LineTerminator sets, which
is both what regex `\s` matches and what `String.prototype.trim` strips —
TAB, LF, VT, FF, CR, space, NBSP, Ogham space mark, the U+2000..U+200A
spaces, line separator, paragraph separator, narrow no-break space, medium
mathematical space, ideographic space and ZWNBSP (U+FEFF). -/
def isWsChar (c : Char) : Bool :=
  c.toNat = 0x09 ∨ c.toNat = 0x0A ∨ c.toNat = 0x0B ∨ c.toNat = 0x0C
  ∨ c.toNat = 0x0D ∨ c.toNat = 0x20 ∨ c.toNat = 0xA0 ∨ c.toNat = 0x1680
  ∨ (0x2000 ≤ c.toNat ∧ c.toNat ≤ 0x200A)
  ∨ c.toNat = 0x2028 ∨ c.toNat = 0x2029 ∨ c.toNat = 0x202F
  ∨ c.toNat = 0x205F ∨ c.toNat = 0x3000 ∨ c.toNat = 0xFEFF

/-- JS `[a-zA-Z0-9_-]` character class used by the drive-id regexes. -/
def isIdChar (c : Char) : Bool :=
  c.isAlpha ∨ c.isDigit ∨ c = '_' ∨ c = '-'

/-- Case-insensitive character comparison (for `/i` regex flags). -/
def ciChar (c d : Char) : Bool := c.toLower = d.toLower

/-- Match a literal (case-sensitively); return the rest of the input. -/
def matchLit : List Char → List Char → Option (List Char)
  | [], s => some s
  | _, [] => none
  | p :: ps, c :: cs => if p = c then matchLit ps cs else none

/-- Match a literal case-insensitively; return the rest of the input. -/
def matchLitCI : List Char → List Char → Option (List Char)
  | [], s => some s
  | _, [] => none
  | p :: ps, c :: cs => if ciChar p c then matchLitCI ps cs else none

/-- Leftmost-first regex search: try the matcher at every start position. -/
def scanFirst {β : Type} (f : List Char → Option β) : List Char → Option β
  | [] => f []
  | s@(_ :: rest) =>
    match f s with
    | some b => some b
    | none => scanFirst f rest

/-- Case-sensitive substring test (JS `String.prototype.includes`). -/
def containsSub (pat : List Char) (s : List Char) : Bool :=
  (scanFirst (fun t => matchLit pat t) s).isSome

/-- JS `String.prototype.startsWith` on character lists. -/
def startsWithChars : List Char → List Char → Bool
  | [], _ => true
  | _, [] => false
  | p :: ps, c :: cs => p = c && startsWithChars ps cs

/-- Take a nonempty greedy run of characters satisfying `p` (JS `X+` where the
class `X` excludes the following delimiter), returning capture and rest. -/
def takeClass1 (p : Char → Bool) (s : List Char) : Option (List Char × List Char) :=
  let cap := s.takeWhile p
  if cap.isEmpty then none else some (cap, s.dropWhile p)

/-! ## `extractImageFromFormula` and friends (src/src/google/sheets.ts) -/

/-- Matcher for `/=IMAGE\s*\(\s*"([^"]+)"\s*[^)]*\)/i` at one start position
(returns the captured URL). -/
def imageFormulaAt (s : List Char) : Option (List Char) := do
  let s ← matchLitCI "=image".data s
  let s := s.dropWhile isWsChar
  let s ← matchLit "(".data s
  let s := s.dropWhile isWsChar
  let s ← matchLit "\"".data s
  let (cap, s) ← takeClass1 (fun c => c ≠ '"') s
  let s ← matchLit "\"".data s
  let s := s.dropWhile isWsChar
  let s := s.dropWhile (fun c => c ≠ ')')
  let _ ← matchLit ")".data s
  pure cap

/-- Matcher for
`/=HYPERLINK\s*\([^,]+,\s*IMAGE\s*\(\s*"([^"]+)"\s*[^)]*\)\s*\)/i`
at one start position. -/
def hyperlinkImageFormulaAt (s : List Char) : Option (List Char) := do
  let s ← matchLitCI "=hyperlink".data s
  let s := s.dropWhile isWsChar
  let s ← matchLit "(".data s
  let (_, s) ← takeClass1 (fun c => c ≠ ',') s
  let s ← matchLit ",".data s
  let s := s.dropWhile isWsChar
  let s ← matchLitCI "image".data s
  let s := s.dropWhile isWsChar
  let s ← matchLit "(".data s
  let s := s.dropWhile isWsChar
  let s ← matchLit "\"".data s
  let (cap, s) ← takeClass1 (fun c => c ≠ '"') s
  let s ← matchLit "\"".data s
  let s := s.dropWhile isWsChar
  let s := s.dropWhile (fun c => c ≠ ')')
  let s ← matchLit ")".data s
  let s := s.dropWhile isWsChar
  let _ ← matchLit ")".data s
  pure cap

/-- Matcher for `/(?:drive\.google\.com\/file\/d\/|id=)([a-zA-Z0-9_-]+)/`
at one start position (returns the captured id). -/
def driveFileIdAt (s : List Char) : Option (List Char) :=
  match matchLit "drive.google.com/file/d/".data s with
  | some rest => (takeClass1 isIdChar rest).map Prod.fst
  | none =>
    match matchLit "id=".data s with
    | some rest => (takeClass1 isIdChar rest).map Prod.fst
    | none => none

/-- Result of `extractImageFromFormula`: a URL plus an optional drive id. -/
structure ImageMatch where
  url : String
  id : Option String
deriving Repr, DecidableEq

/-- `extractImageFromFormula` (sheets.ts lines 224-248): try the IMAGE regex,
then the HYPERLINK-wrapping-IMAGE regex; on a match, try to extract a drive
file id from the captured URL. -/
def extractImageFromFormula (formula : String) : Option ImageMatch :=
  let m :=
    match scanFirst imageFormulaAt formula.data with
    | some cap => some cap
    | none => scanFirst hyperlinkImageFormulaAt formula.data
  match m with
  | none => none
  | some cap =>
    let url : String := ⟨cap⟩
    match scanFirst driveFileIdAt cap with
    | some idCap => some { url := url, id := some (⟨idCap⟩ : String) }
    | none => some { url := url, id := none }

/-- Matcher for `/=HYPERLINK\s*\(\s*"([^"]+)"\s*[^)]*\)/i` at one position. -/
def hyperlinkFormulaAt (s : List Char) : Option (List Char) := do
  let s ← matchLitCI "=hyperlink".data s
  let s := s.dropWhile isWsChar
  let s ← matchLit "(".data s
  let s := s.dropWhile isWsChar
  let s ← matchLit "\"".data s
  let (cap, s) ← takeClass1 (fun c => c ≠ '"') s
  let s ← matchLit "\"".data s
  let s := s.dropWhile isWsChar
  let s := s.dropWhile (fun c => c ≠ ')')
  let _ ← matchLit ")".data s
  pure cap

/-- `extractHyperlinkFromFormula` (sheets.ts lines 250-259): the hyperlink
regex must match and the formula must not contain the literal `IMAGE(`
(case-sensitive `includes`). -/
def extractHyperlinkFromFormula (formula : String) : Option String :=
  match scanFirst hyperlinkFormulaAt formula.data with
  | some cap =>
    if containsSub "IMAGE(".data formula.data then none
    else some (⟨cap⟩ : String)
  | none => none

/-! ## `extractDriveImageFromValue` (sheets.ts lines 642-681) -/

/-- Matches `https` or `http` (JS `https?`), returning the rest. -/
def matchHttp (s : List Char) : Option (List Char) := do
  let s ← matchLit "http".data s
  match matchLit "s".data s with
  | some rest => pure rest
  | none => pure s

/-- Pattern 1: `/https?:\/\/drive\.google\.com\/file\/d\/([a-zA-Z0-9_-]+)/`. -/
def drivePattern1At (s : List Char) : Option (List Char) := do
  let s ← matchHttp s
  let s ← matchLit "://drive.google.com/file/d/".data s
  let (cap, _) ← takeClass1 isIdChar s
  pure cap

/-- Pattern 2: `/https?:\/\/drive\.google\.com\/open\?id=([a-zA-Z0-9_-]+)/`. -/
def drivePattern2At (s : List Char) : Option (List Char) := do
  let s ← matchHttp s
  let s ← matchLit "://drive.google.com/open?id=".data s
  let (cap, _) ← takeClass1 isIdChar s
  pure cap

/-- Find the earliest occurrence of `id=` (the lazy `.*?id=` part of pattern
3); `.` excludes newlines in JS, so the lazy run must be newline-free. -/
def lazyToIdEq : List Char → Option (List Char)
  | [] => none
  | s@(c :: rest) =>
    match matchLit "id=".data s with
    | some r => some r
    | none => if c = '\n' then none else lazyToIdEq rest

/-- Pattern 3: `/https?:\/\/drive\.google\.com\/uc\?.*?id=([a-zA-Z0-9_-]+)/`. -/
def drivePattern3At (s : List Char) : Option (List Char) := do
  let s ← matchHttp s
  let s ← matchLit "://drive.google.com/uc?".data s
  let s ← lazyToIdEq s
  let (cap, _) ← takeClass1 isIdChar s
  pure cap

/-- Find the earliest occurrence of `/d/` (the lazy `.*?\/d\/` of pattern 4). -/
def lazyToSlashD : List Char → Option (List Char)
  | [] => none
  | s@(c :: rest) =>
    match matchLit "/d/".data s with
    | some r => some r
    | none => if c = '\n' then none else lazyToSlashD rest

/-- Pattern 4: `/https?:\/\/docs\.google\.com\/.*?\/d\/([a-zA-Z0-9_-]+)/`. -/
def drivePattern4At (s : List Char) : Option (List Char) := do
  let s ← matchHttp s
  let s ← matchLit "://docs.google.com/".data s
  let s ← lazyToSlashD s
  let (cap, _) ← takeClass1 isIdChar s
  pure cap

/-- Pattern 5: `/https?:\/\/drive\.google\.com\/([a-zA-Z0-9_-]+)/`. -/
def drivePattern5At (s : List Char) : Option (List Char) := do
  let s ← matchHttp s
  let s ← matchLit "://drive.google.com/".data s
  let (cap, _) ← takeClass1 isIdChar s
  pure cap

/-- Result of a drive-image extraction: a download URL plus the file id. -/
structure DriveImage where
  url : String
  id : String
deriving Repr, DecidableEq

/-- Build the download URL used everywhere in sheets.ts. -/
def driveDownloadUrl (id : String) : String :=
  "https://drive.google.com/uc?export=download&id=" ++ id

/-- JS `String.prototype.trim`: strip leading and trailing whitespace. -/
def trimChars (s : List Char) : List Char :=
  ((s.dropWhile isWsChar).reverse.dropWhile isWsChar).reverse

/-- `extractDriveImageFromValue`: try the five URL patterns in order, then the
bare 33-34 character drive-id form (`/^[a-zA-Z0-9_-]{33,34}$/`) on the
trimmed value. -/
def extractDriveImageFromValue (value : String) : Option DriveImage :=
  let pats : List (List Char → Option (List Char)) :=
    [drivePattern1At, drivePattern2At, drivePattern3At, drivePattern4At,
     drivePattern5At]
  match pats.firstM (fun pat => scanFirst pat value.data) with
  | some cap =>
    let id : String := ⟨cap⟩
    some { url := driveDownloadUrl id, id := id }
  | none =>
    let t := trimChars value.data
    if t.all isIdChar ∧ 33 ≤ t.length ∧ t.length ≤ 34 then
      some { url := driveDownloadUrl ⟨t⟩, id := (⟨t⟩ : String) }
    else none

/-! ## Embedded-cell metadata and `extractEmbeddedImage` (lines 585-640) -/

/-- The slice of the Sheets API per-cell metadata that
`extractEmbeddedImage` inspects. -/
structure EmbeddedCell where
  hyperlink : Option String
  effectiveValue : Option String
  formattedValue : Option String
  linkUris : List String
deriving Repr, DecidableEq

/-- The cell-metadata drive pattern `/drive\.google\.com\/file\/d\/([a-zA-Z0-9_-]+)/`. -/
def embeddedDrivePatternAt (s : List Char) : Option (List Char) := do
  let s ← matchLit "drive.google.com/file/d/".data s
  let (cap, _) ← takeClass1 isIdChar s
  pure cap

/-- `extractEmbeddedImage` (sheets.ts lines 585-640): check the metadata
hyperlink, then `effectiveValue`, then `formattedValue`, then every
`textFormatRuns` link URI. -/
def extractEmbeddedImage (cellData : EmbeddedCell) : Option DriveImage :=
  match cellData.hyperlink.bind (fun h => scanFirst embeddedDrivePatternAt h.data) with
  | some cap =>
    let id : String := ⟨cap⟩
    some { url := driveDownloadUrl id, id := id }
  | none =>
    match cellData.effectiveValue.bind (fun v => extractDriveImageFromValue v) with
    | some di => some di
    | none =>
      match cellData.formattedValue.bind (fun v => extractDriveImageFromValue v) with
      | some di => some di
      | none => cellData.linkUris.firstM (fun uri => extractDriveImageFromValue uri)

/-! ## Per-cell classification (`processSheetData` body, lines 156-215) -/

/-- `GoogleCellValue` (src types). -/
structure GoogleCellValue where
  value : String
  formula : Option String
  hyperlink : Option String
  isImage : Bool
  imageUrl : Option String
  imageId : Option String
deriving Repr, DecidableEq

/-- The raw inputs `processSheetData` sees for one cell: the formatted value
(defaulted to `""` for missing cells), the formula rendering (defaulted to
`""`), and the optional embedded metadata. -/
structure CellInput where
  value : String
  formula : String
  embedded : Option EmbeddedCell
deriving Repr, DecidableEq

/-- The per-cell body of `processSheetData` (sheets.ts lines 156-215):
formula-derived image, then formula hyperlink (promoting drive file links to
images), then embedded-metadata images, then raw-value drive links. -/
def processCellData (input : CellInput) : GoogleCellValue :=
  let cellData : GoogleCellValue :=
    { value := input.value
      formula := if input.formula ≠ input.value then some input.formula else none
      hyperlink := none
      isImage := false
      imageUrl := none
      imageId := none }
  -- Check formula for images first
  let cellData :=
    if input.formula ≠ "" then
      let cellData :=
        match extractImageFromFormula input.formula with
        | some im =>
          { cellData with isImage := true, imageUrl := some im.url, imageId := im.id }
        | none => cellData
      match extractHyperlinkFromFormula input.formula with
      | some h =>
        if cellData.isImage then cellData
        else if containsSub "drive.google.com/file/d/".data h.data then
          match scanFirst embeddedDrivePatternAt h.data with
          | some idCap =>
            let id : String := ⟨idCap⟩
            { cellData with isImage := true, imageUrl := some (driveDownloadUrl id),
                            imageId := some id }
          | none => cellData
        else { cellData with hyperlink := some h }
      | none => cellData
    else cellData
  -- Check for embedded images in cell metadata
  let cellData :=
    if cellData.isImage = false then
      match input.embedded with
      | some emb =>
        match extractEmbeddedImage emb with
        | some di =>
          let withImg :=
            { cellData with isImage := true, imageUrl := some di.url,
                            imageId := some di.id }
          if withImg.value = "" then { withImg with value := "Embedded Image" }
          else withImg
        | none => cellData
      | none => cellData
    else cellData
  -- Check cell value for Google Drive image links
  if cellData.isImage = false ∧ input.value ≠ "" then
    match extractDriveImageFromValue input.value with
    | some di =>
      { cellData with isImage := true, imageUrl := some di.url, imageId := some di.id }
    | none => cellData
  else cellData

/-- The three mutually exclusive classes the spec describes: image beats
hyperlink beats plain value, and at most one applies. -/
def exactlyOneClass (c : GoogleCellValue) : Prop :=
  ¬ (c.isImage = true ∧ c.hyperlink.isSome = true)

instance (c : GoogleCellValue) : Decidable (exactlyOneClass c) := by
  unfold exactlyOneClass; infer_instance

/-! ## Header-row scoring (`scoreHeaderRow`, sheets.ts lines 414-489)

`isNaN(Number(cell))` and the curated `isLikelyColumnHeader` regex set are
opaque platform semantics; they enter as the function parameters `isNum`
(true when JS `Number(s)` is not NaN) and `likelyHeader`. -/

/-- The date shape `/^\d{1,2}\/\d{1,2}\/\d{2,4}$/` used in the all-numeric
penalty.  Maximal digit runs are delimited by `/` or end of string, so the
greedy-with-backtracking JS semantics reduces to run-length interval checks. -/
def dateShaped (s : String) : Bool :=
  (do
    let (d1, r) ← takeClass1 Char.isDigit s.data
    if d1.length ≤ 2 then pure () else none
    let r ← matchLit "/".data r
    let (d2, r) ← takeClass1 Char.isDigit r
    if d2.length ≤ 2 then pure () else none
    let r ← matchLit "/".data r
    let (d3, r) ← takeClass1 Char.isDigit r
    if 2 ≤ d3.length ∧ d3.length ≤ 4 then pure () else none
    if r.isEmpty then pure () else none).isSome

/-- Scoring contributions that depend only on the candidate row itself
(lines 415-437 of sheets.ts): +2 per non-generic header, +1 for lengths in
[2,30], +3 for curated vocabulary matches, -2 for lengths above 50. -/
def headerBaseScore (likelyHeader : String → Bool) (headers : List String) : Int :=
  let nonGeneric := headers.filter (fun h => !(startsWithChars "Column ".data h.data))
  2 * (nonGeneric.length : Int)
  + (nonGeneric.map (fun h =>
      (if 2 ≤ h.length ∧ h.length ≤ 30 then (1 : Int) else 0)
      + (if likelyHeader h then (3 : Int) else 0)
      + (if h.length > 50 then (-2 : Int) else 0))).sum

/-- The guard of the next-row loop body (line 450): the header cell is truthy
and non-generic and the data cell below is truthy. -/
def nextRowGuard (headers nextRow : List String) (i : Nat) : Bool :=
  let headerCell := headers.getD i ""
  let dataCell := nextRow.getD i ""
  !(headerCell == "") && !(startsWithChars "Column ".data headerCell.data)
    && !(dataCell == "")

/-- The type-shift condition (lines 451-454): guard holds, the header cell is
textual (`isNaN(Number(headerCell))`) and the data cell below is numeric. -/
def typeShiftCond (isNum : String → Bool) (headers nextRow : List String) (i : Nat) : Bool :=
  nextRowGuard headers nextRow i
    && !(isNum (headers.getD i "")) && isNum (nextRow.getD i "")

/-- The next-row analysis (lines 440-467): +2 per type-shift column, and +3
once if any column has data below.  In the source, `hasDataBelow` is set both
in the shift branch and in the `else if (dataCell && dataCell !== '')` branch;
under the guard the data cell is always truthy, so `hasDataBelow` is exactly
"some column satisfies the guard". -/
def nextRowScore (isNum : String → Bool) (headers nextRow : List String) : Int :=
  if nextRow ≠ [] then
    let n := min headers.length nextRow.length
    let shiftCount := (List.range n).countP (typeShiftCond isNum headers nextRow)
    let hasDataBelow := (List.range n).any (nextRowGuard headers nextRow)
    2 * (shiftCount : Int) + (if hasDataBelow then 3 else 0)
  else 0

/-- `scoreHeaderRow` (sheets.ts lines 414-489).  The fill-ratio comparison
`filled / headers.length > 0.7` is rendered exactly as the rational test
`10 * filled > 7 * headers.length` (no fraction with the relevant
denominators falls between the double nearest 0.7 and 7/10). -/
def scoreHeaderRow (isNum likelyHeader : String → Bool)
    (headers : List String) (allRows : List (List String)) (rowIndex : Nat) : Int :=
  let score1 := headerBaseScore likelyHeader headers
  let score2 :=
    if rowIndex + 1 < allRows.length then
      nextRowScore isNum headers (allRows.getD (rowIndex + 1) [])
    else 0
  let filled := (headers.filter
    (fun h => !(h == "") && !(startsWithChars "Column ".data h.data))).length
  let score3 : Int := if 10 * filled > 7 * headers.length then 3 else 0
  let score4 : Int := if 3 ≤ headers.length ∧ headers.length ≤ 50 then 2 else 0
  let nonGeneric := headers.filter (fun h => !(startsWithChars "Column ".data h.data))
  let score5 : Int :=
    if (nonGeneric.all fun h => isNum h ∨ dateShaped h) ∧ nonGeneric ≠ [] then -10 else 0
  score1 + score2 + score3 + score4 + score5

/-! ## Smartsheet API service (src/unnamed/part_008)

This file of the repository is the `SmartsheetAPIService` version consistent
with the callers in `transfer.ts` (it defines `addImageToCell` and returns the
inserted rows from `addRowsToSheet`; the sibling copy at
`src/src/smartsheet/api.ts` lacks both).  The external row-insert capability
(`makeAuthenticatedRequest` POST `/sheets/id/rows`) is the `api` oracle: per
the consumed-interface contract it answers one call with the ordered list of
assigned row objects or fails wholesale. -/

/-- A row object from the Smartsheet insert response.  `id` is optional so
that rows with a missing identifier are representable; JS falsiness also
discards an id of `0`. -/
structure InsertedRow where
  id : Option Nat
deriving Repr, DecidableEq

/-- JS truthiness of `insertedRow.id` (`!insertedRow.id` fails for both a
missing id and an id of 0). -/
def InsertedRow.idTruthy (r : InsertedRow) : Option Nat :=
  match r.id with
  | some i => if i = 0 then none else some i
  | none => none

/-- The value returned by `addRowsToSheet` (part_008 line 361): success and
failure counts, per-row error records, and the concatenated inserted rows. -/
structure AddRowsResult where
  success : Nat
  failed : Nat
  errors : List (Nat × String)
  result : List InsertedRow
deriving Repr, DecidableEq

/-- The inner chunk size of `addRowsToSheet` (`batchSize = 100`). -/
def addRowsBatchSize : Nat := 100

/-- The chunking loop of `addRowsToSheet` (part_008 lines 369-408): submit
`rows.slice(i, i+100)`; on success accumulate the response rows, on failure
record one error per row of the chunk.  Fuel is the initial row count; each
step consumes at least one row, so it never runs out. -/
def addRowsGo {Row : Type} (api : List Row → Except String (List InsertedRow)) :
    Nat → Nat → List Row → AddRowsResult → AddRowsResult
  | 0, _, _, acc => acc
  | _, _, [], acc => acc
  | fuel + 1, i, rows@(_ :: _), acc =>
    let batch := rows.take addRowsBatchSize
    let rest := rows.drop addRowsBatchSize
    match api batch with
    | .ok res =>
      addRowsGo api fuel (i + addRowsBatchSize) rest
        { acc with success := acc.success + res.length,
                   result := acc.result ++ res }
    | .error e =>
      addRowsGo api fuel (i + addRowsBatchSize) rest
        { acc with failed := acc.failed + batch.length,
                   errors := acc.errors ++ (List.range batch.length).map (fun j => (i + j, e)) }

/-- `addRowsToSheet` (part_008 lines 353-419). -/
def addRowsToSheet {Row : Type} (api : List Row → Except String (List InsertedRow))
    (rows : List Row) : AddRowsResult :=
  addRowsGo api rows.length 0 rows ⟨0, 0, [], []⟩

/-! ## Image upload cache (`uploadImage`, part_008 lines 304-351) -/

/-- One row of the `image_cache` store (src types `ImageCache`). -/
structure ImageCacheEntry where
  hash : String
  smartsheetImageId : String
  url : String
deriving Repr, DecidableEq

/-- `database.getCachedImage`: first entry with the given hash. -/
def getCachedImage (cache : List ImageCacheEntry) (h : String) : Option ImageCacheEntry :=
  cache.find? (fun e => e.hash = h)

/-- `database.cacheImage`: remove any entry with the same hash, then append
the new one (part_009 lines 548-560). -/
def cacheImage (cache : List ImageCacheEntry) (h imageId url : String) :
    List ImageCacheEntry :=
  cache.filter (fun e => e.hash ≠ h) ++ [⟨h, imageId, url⟩]

/-- Explicit-state view of the world `uploadImage` touches: the image cache
plus a counter of POST `/images` uploads actually performed. -/
structure UploadState where
  cache : List ImageCacheEntry
  uploadsPerformed : Nat
deriving Repr, DecidableEq

/-- `uploadImage` (part_008 lines 304-351): hash the buffer
(`generateSecureHash` is SHA-256 of the base64 rendering — deterministic, so
it enters as the function parameter `hashOf`); return a cache hit without
uploading; otherwise POST the image (`api` is that call's outcome), cache the
fresh id under the hash, and return it. -/
def uploadImage (hashOf : List Nat → String) (api : Except String String)
    (st : UploadState) (imageBuffer : List Nat) (filename : String) :
    Except String String × UploadState :=
  let imageHash := hashOf imageBuffer
  match getCachedImage st.cache imageHash with
  | some cachedImage => (.ok cachedImage.smartsheetImageId, st)
  | none =>
    match api with
    | .ok imageId =>
      (.ok imageId,
        { cache := cacheImage st.cache imageHash imageId filename,
          uploadsPerformed := st.uploadsPerformed + 1 })
    | .error e => (.error e, { st with uploadsPerformed := st.uploadsPerformed + 1 })

/-! ## Image fallback pipeline (`processImageQueue`, transfer.ts lines 632-698) -/

/-- An entry of the transient image queue built while converting a batch. -/
structure ImageQueueEntry where
  rowIndex : Nat
  columnId : Nat
  imageUrl : String
  imageId : Option String
deriving Repr, DecidableEq

/-- The three counters `processImageQueue` returns. -/
structure ImageQueueCounters where
  successful : Nat
  failed : Nat
  fallbacks : Nat
deriving Repr, DecidableEq

/-- The row targeted by a queue entry: `insertedRows[imageItem.rowIndex]`
(transfer.ts line 653). -/
def resolvedInsertedRow (insertedRows : List InsertedRow) (entry : ImageQueueEntry) :
    Option InsertedRow :=
  insertedRows.get? entry.rowIndex

/-- The three mutually exclusive outcomes of one queued image. -/
inductive ImageOutcome
  | successfulImage
  | fallbackLink
  | failedImage
deriving Repr, DecidableEq

/-- Outcome of one queue entry (transfer.ts lines 651-695): a missing or
falsy row id fails the item; otherwise download-plus-attach success counts as
a successful image, else a successful hyperlink rewrite counts as a fallback,
else the item fails.  `attachOk` and `fallbackOk` are the oracles for the two
effectful attempts. -/
def imageOutcome (insertedRows : List InsertedRow) (attachOk fallbackOk : Bool)
    (item : ImageQueueEntry) : ImageOutcome :=
  match (resolvedInsertedRow insertedRows item).bind InsertedRow.idTruthy with
  | none => .failedImage
  | some _ =>
    if attachOk then .successfulImage
    else if fallbackOk then .fallbackLink
    else .failedImage

/-- One iteration of the `processImageQueue` loop, bumping exactly one of the
three counters. -/
def processImageItem (insertedRows : List InsertedRow) (attachOk fallbackOk : Bool)
    (item : ImageQueueEntry) (acc : ImageQueueCounters) : ImageQueueCounters :=
  match imageOutcome insertedRows attachOk fallbackOk item with
  | .successfulImage => { acc with successful := acc.successful + 1 }
  | .fallbackLink => { acc with fallbacks := acc.fallbacks + 1 }
  | .failedImage => { acc with failed := acc.failed + 1 }

/-- The loop of `processImageQueue`, threading the queue position so the
oracles can give each item its own outcome. -/
def processImageQueueGo (insertedRows : List InsertedRow)
    (attachOk fallbackOk : Nat → Bool) :
    Nat → List ImageQueueEntry → ImageQueueCounters → ImageQueueCounters
  | _, [], acc => acc
  | k, item :: rest, acc =>
    processImageQueueGo insertedRows attachOk fallbackOk (k + 1) rest
      (processImageItem insertedRows (attachOk k) (fallbackOk k) item acc)

/-- `processImageQueue` (transfer.ts lines 632-698).  The source reads
`insertResult.result || insertResult.data || insertResult || []`; with the
`addRowsToSheet` return shape the `result` array is always present, so the
lookup list is `insertResult.result`. -/
def processImageQueue (imageQueue : List ImageQueueEntry) (insertResult : AddRowsResult)
    (attachOk fallbackOk : Nat → Bool) : ImageQueueCounters :=
  processImageQueueGo insertResult.result attachOk fallbackOk 0 imageQueue ⟨0, 0, 0⟩

/-- The outcome list of a whole queue, one outcome per entry in order. -/
def queueOutcomes (insertedRows : List InsertedRow) (attachOk fallbackOk : Nat → Bool)
    (imageQueue : List ImageQueueEntry) : List ImageOutcome :=
  imageQueue.enum.map (fun p => imageOutcome insertedRows (attachOk p.1) (fallbackOk p.1) p.2)

/-! ## Transfer orchestrator (`TransferService`, src/src/services/transfer.ts)

The job store is explicit state (`JobRecord`); network calls are oracles
giving each call's outcome; the externally visible actions the claims talk
about (status writes and destination batch submissions) are recorded in an
event trace.  An external `cancelTransfer` request may run at every batch
boundary, governed by the `cancelAfter` schedule.  Console logging,
`addJobLog`, `getSpreadsheetInfo` and `updateTransferJobInfo` are elided:
they touch no state any claim mentions. -/

/-- Job lifecycle status. -/
inductive TransferStatus
  | pending
  | running
  | completed
  | failed
  | cancelled
deriving Repr, DecidableEq

/-- `TransferError.type` values (src types). -/
inductive TransferErrorType
  | imageAccessDenied
  | imageUploadFailed
  | rowInsertFailed
  | generalError
deriving Repr, DecidableEq

/-- A progress error record. -/
structure TransferErrorRec where
  etype : TransferErrorType
  message : String
deriving Repr, DecidableEq

/-- `TransferProgress` (src types); `warnings` stays empty on every modelled
path and is omitted. -/
structure TransferProgress where
  totalRows : Nat
  processedRows : Nat
  totalImages : Nat
  processedImages : Nat
  successfulImages : Nat
  fallbackImages : Nat
  failedImages : Nat
  errors : List TransferErrorRec
deriving Repr, DecidableEq

/-- The persisted job row: lifecycle status plus progress. -/
structure JobRecord where
  status : TransferStatus
  progress : TransferProgress
deriving Repr, DecidableEq

/-- Observable actions: a status write to the job store, or a batch of rows
submitted to the destination sheet. -/
inductive TransferEvent
  | statusUpdate (s : TransferStatus)
  | batchSubmit (rowCount : Nat)
deriving Repr, DecidableEq

/-- True exactly on destination batch submissions. -/
def isBatchSubmitEv : TransferEvent → Bool
  | .batchSubmit _ => true
  | .statusUpdate _ => false

/-- The job store plus the event trace of the run. -/
structure RunState where
  db : JobRecord
  trace : List TransferEvent
deriving Repr, DecidableEq

/-- `database.updateTransferJobStatus(jobId, status, progress?)`. -/
def updateTransferJobStatus (st : RunState) (s : TransferStatus)
    (p : Option TransferProgress) : RunState :=
  { db := { status := s, progress := p.getD st.db.progress },
    trace := st.trace ++ [.statusUpdate s] }

/-- `cancelTransfer` (transfer.ts lines 720-729): set a running job's status
to cancelled; leave any other status untouched. -/
def cancelTransfer (st : RunState) : RunState :=
  if st.db.status = .running then updateTransferJobStatus st .cancelled none else st

/-- `ColumnMapping.dataType` values. -/
inductive MappingDataType
  | text
  | number
  | date
  | image
  | hyperlink
deriving Repr, DecidableEq

/-- `ColumnMapping` (src types). -/
structure ColumnMapping where
  googleColumn : String
  smartsheetColumnId : Nat
  dataType : MappingDataType
  googleColumnIndex : Option Nat
deriving Repr, DecidableEq

/-- A destination sheet column (only the id matters to the claims). -/
structure SmartsheetColumn where
  id : Nat
deriving Repr, DecidableEq

/-- The count-mismatch abort message of transfer.ts line 295 (its dynamic
name/count parts are elided). -/
def columnCountMismatchMsg : String :=
  "Cannot map columns to existing sheet with fewer columns"

/-- The ordinal rewrite of transfer.ts lines 286-297: replace each mapping's
`smartsheetColumnId` with the id of the destination column at the same
ordinal position, or throw the count-mismatch error when the destination has
no column there. -/
def fixColumnMappingsGo (columns : List SmartsheetColumn) :
    Nat → List ColumnMapping → Except String (List ColumnMapping)
  | _, [] => .ok []
  | index, mapping :: rest =>
    match columns.get? index with
    | some actualColumn =>
      (fixColumnMappingsGo columns (index + 1) rest).map
        (fun ms => { mapping with smartsheetColumnId := actualColumn.id } :: ms)
    | none => .error columnCountMismatchMsg

/-- The whole mapping rewrite (`fixedColumnMappings` in
`performActualTransfer`); the spec calls this ColumnMapper reconciliation. -/
def fixColumnMappings (mappings : List ColumnMapping) (columns : List SmartsheetColumn) :
    Except String (List ColumnMapping) :=
  fixColumnMappingsGo columns 0 mappings

/-- A destination cell as built by `convertRowToSmartsheet`.  The numeric and
date coercions of `formatCellValue` (JS `parseFloat` / `Date`) only shape the
cell payload, which no claim inspects, so the value is carried verbatim. -/
structure SmartsheetCellValue where
  columnId : Nat
  value : String
  hyperlinkUrl : Option String
deriving Repr, DecidableEq

/-- `convertRowToSmartsheet` (transfer.ts lines 491-559), walking the column
mappings.  A missing source cell yields an empty cell; a truthy image cell
yields the placeholder text plus an image-queue entry; a truthy hyperlink on
a hyperlink-typed mapping yields a hyperlink cell; everything else yields a
plain cell.  Entries accumulate left to right. -/
def convertCellsGo (googleRow : List GoogleCellValue) (currentRowIndex : Nat) :
    Nat → List ColumnMapping → List SmartsheetCellValue × List ImageQueueEntry
  | _, [] => ([], [])
  | i, mapping :: rest =>
    let googleColumnIndex := mapping.googleColumnIndex.getD i
    let (cells, queue) := convertCellsGo googleRow currentRowIndex (i + 1) rest
    match googleRow.get? googleColumnIndex with
    | none => (⟨mapping.smartsheetColumnId, "", none⟩ :: cells, queue)
    | some googleCell =>
      if googleCell.isImage ∧ googleCell.imageUrl.getD "" ≠ "" then
        (⟨mapping.smartsheetColumnId, "Loading image...", none⟩ :: cells,
         (⟨currentRowIndex, mapping.smartsheetColumnId, googleCell.imageUrl.getD "",
           googleCell.imageId⟩ : ImageQueueEntry) :: queue)
      else if googleCell.hyperlink.getD "" ≠ "" ∧ mapping.dataType = .hyperlink then
        let url := googleCell.hyperlink.getD ""
        let text := if googleCell.value ≠ "" then googleCell.value else url
        (⟨mapping.smartsheetColumnId, text, some url⟩ :: cells, queue)
      else
        (⟨mapping.smartsheetColumnId, googleCell.value, none⟩ :: cells, queue)

/-- `convertRowToSmartsheet` proper. -/
def convertRowToSmartsheet (googleRow : List GoogleCellValue)
    (mappings : List ColumnMapping) (currentRowIndex : Nat) :
    List SmartsheetCellValue × List ImageQueueEntry :=
  convertCellsGo googleRow currentRowIndex 0 mappings

/-- Number of image cells in one source row (`if (cell.isImage)
processedImages++`). -/
def countRowImages (googleRow : List GoogleCellValue) : Nat :=
  (googleRow.filter (fun c => c.isImage)).length

/-- The orchestrator batch size (transfer.ts line 362). -/
def transferBatchSize : Nat := 50

/-- Fixed-size chunking (`dataRows.slice(i, i + batchSize)`), fuel-based so
it evaluates in the kernel; fuel is the list length and every step of the
intended use (`sz > 0`) consumes at least one element. -/
def chunksOfGo (sz : Nat) : Nat → List α → List (List α)
  | 0, _ => []
  | _, [] => []
  | fuel + 1, l@(_ :: _) => l.take sz :: chunksOfGo sz fuel (l.drop sz)

/-- All chunks of size `sz` of a list. -/
def chunksOf (sz : Nat) (l : List α) : List (List α) := chunksOfGo sz l.length l

/-- Per-call outcomes of the network effects the orchestrator performs. -/
structure TransferEffects where
  googleTokensE : Except String Unit
  smartsheetTokensE : Except String Unit
  headerRowE : Except String Nat
  googleDataE : Except String (List (String × List (List GoogleCellValue)))
  imageValidationE : Except String (List (Bool × String))
  sheetColumnsE : Except String (List SmartsheetColumn)
  rowApi : Nat → List (List SmartsheetCellValue) → Except String (List InsertedRow)
  attachOk : Nat → Nat → Bool
  fallbackOk : Nat → Nat → Bool

/-- The static part of a `TransferJob` the execution reads (its lifecycle
status and progress live in the job store, i.e. in `RunState`). -/
structure TransferJob where
  columnMappings : List ColumnMapping
  headerRowIndex : Option Nat
  dryRun : Bool
deriving Repr

/-- Header-row resolution shared by both execution modes (explicit job
override, else `getSpreadsheetHeadersWithRowIndex`). -/
def resolveHeaderRow (job : TransferJob) (eff : TransferEffects) : Except String Nat :=
  match job.headerRowIndex with
  | some i => .ok i
  | none => eff.headerRowE

/-- The in-flight accumulator of the batch loop of `performActualTransfer`:
the local counters and error list of the closure, the shared run state, and
the global batch counter used to index the per-batch oracles. -/
structure BatchLoopState where
  run : RunState
  processedRows : Nat
  processedImages : Nat
  successfulImages : Nat
  fallbackImages : Nat
  failedImages : Nat
  errors : List TransferErrorRec
  batchNo : Nat
deriving Repr

/-- Convert one batch of source rows: destination rows, the image queue, and
the number of image cells seen (transfer.ts lines 368-397; the
`row_insert_failed` conversion catch is unreachable because the modelled
conversion is total). -/
def convertBatchGo (mappings : List ColumnMapping) :
    Nat → List (List GoogleCellValue) →
    List (List SmartsheetCellValue) × List ImageQueueEntry × Nat
  | _, [] => ([], [], 0)
  | rowIndex, googleRow :: rest =>
    let (cells, queue) := convertRowToSmartsheet googleRow mappings rowIndex
    let (restRows, restQueue, restImages) := convertBatchGo mappings (rowIndex + 1) rest
    (cells :: restRows, queue ++ restQueue, countRowImages googleRow + restImages)

/-- The per-batch body (transfer.ts lines 363-487): convert, submit, process
the image queue against the just-returned rows, extend the error list,
persist progress, then hit the batch boundary where an external
`cancelTransfer` may run (the `cancelAfter` schedule). -/
def processBatch (eff : TransferEffects) (cancelAfter : Nat → Bool)
    (totalRows totalImages : Nat) (mappings : List ColumnMapping)
    (batch : List (List GoogleCellValue)) (s : BatchLoopState) : BatchLoopState :=
  let (smartsheetRows, imageQueue, imgCount) := convertBatchGo mappings 0 batch
  let s := { s with processedImages := s.processedImages + imgCount }
  let s :=
    if smartsheetRows ≠ [] then
      let result := addRowsToSheet (eff.rowApi s.batchNo) smartsheetRows
      let run1 := { s.run with trace := s.run.trace ++ [.batchSubmit smartsheetRows.length] }
      let counters :=
        if imageQueue ≠ [] ∧ result.success > 0 then
          processImageQueue imageQueue result (eff.attachOk s.batchNo) (eff.fallbackOk s.batchNo)
        else ⟨0, 0, 0⟩
      { s with run := run1,
               processedRows := s.processedRows + result.success,
               successfulImages := s.successfulImages + counters.successful,
               fallbackImages := s.fallbackImages + counters.fallbacks,
               failedImages := s.failedImages + counters.failed,
               errors := s.errors ++ result.errors.map (fun e => ⟨.rowInsertFailed, e.2⟩) }
    else s
  let prog : TransferProgress :=
    { totalRows := totalRows, processedRows := s.processedRows,
      totalImages := totalImages, processedImages := s.processedImages,
      successfulImages := s.successfulImages, fallbackImages := s.fallbackImages,
      failedImages := s.failedImages, errors := s.errors }
  let run2 := updateTransferJobStatus s.run .running (some prog)
  let run3 := if cancelAfter s.batchNo then cancelTransfer run2 else run2
  { s with run := run3, batchNo := s.batchNo + 1 }

/-- One tab (transfer.ts lines 350-488): skip tabs without data rows,
otherwise run the batch loop over 50-row chunks of the rows below the
header. -/
def processTab (eff : TransferEffects) (cancelAfter : Nat → Bool)
    (totalRows totalImages : Nat) (mappings : List ColumnMapping)
    (tabData : List (List GoogleCellValue)) (s : BatchLoopState) : BatchLoopState :=
  if tabData.length ≤ 1 then s
  else
    (chunksOf transferBatchSize (tabData.drop 1)).foldl
      (fun s batch => processBatch eff cancelAfter totalRows totalImages mappings batch s) s

/-- `performActualTransfer` (transfer.ts lines 237-489).  Returns the run
state plus `some message` when the body threw. -/
def performActualTransfer (eff : TransferEffects) (cancelAfter : Nat → Bool)
    (job : TransferJob) (st : RunState) : RunState × Option String :=
  match resolveHeaderRow job eff with
  | .error e => (st, some e)
  | .ok _ =>
  match eff.googleDataE with
  | .error e => (st, some e)
  | .ok googleData =>
  match eff.sheetColumnsE with
  | .error e => (st, some e)
  | .ok columns =>
  match fixColumnMappings job.columnMappings columns with
  | .error e => (st, some e)
  | .ok fixedMappings =>
    let totalRows := (googleData.map (fun t => if t.2.length > 1 then t.2.length - 1 else 0)).sum
    let totalImages := (googleData.map (fun t => (t.2.map countRowImages).sum)).sum
    let st := updateTransferJobStatus st .running
      (some { totalRows := totalRows, processedRows := 0,
              totalImages := totalImages, processedImages := 0,
              successfulImages := 0, fallbackImages := 0, failedImages := 0,
              errors := [] })
    let sFinal := googleData.foldl
      (fun s t => processTab eff cancelAfter totalRows totalImages fixedMappings t.2 s)
      ⟨st, 0, 0, 0, 0, 0, [], 0⟩
    (sFinal.run, none)

/-- Number of image cells a dry run counts in one row (`cell.isImage &&
cell.imageUrl`). -/
def countRowImagesWithUrl (googleRow : List GoogleCellValue) : Nat :=
  (googleRow.filter (fun c => c.isImage ∧ c.imageUrl.getD "" ≠ "")).length

/-- `performDryRun` (transfer.ts lines 157-235): resolve the header row,
read the data, validate a sample of images (`imageValidationE` holds that
batch call's outcome), then persist a progress snapshot with one
`image_access_denied` error per inaccessible sampled image, leaving the
status running. -/
def performDryRun (eff : TransferEffects) (job : TransferJob) (st : RunState) :
    RunState × Option String :=
  match resolveHeaderRow job eff with
  | .error e => (st, some e)
  | .ok _ =>
  match eff.googleDataE with
  | .error e => (st, some e)
  | .ok googleData =>
  match eff.imageValidationE with
  | .error e => (st, some e)
  | .ok results =>
    let totalRows := (googleData.map (fun t => if t.2.length > 1 then t.2.length - 1 else 0)).sum
    let totalImages := (googleData.map (fun t => (t.2.map countRowImagesWithUrl).sum)).sum
    let errs := (results.filter (fun r => ¬ r.1)).map
      (fun r => (⟨.imageAccessDenied, "Image not accessible: " ++ r.2⟩ : TransferErrorRec))
    (updateTransferJobStatus st .running
      (some { totalRows := totalRows, processedRows := totalRows,
              totalImages := totalImages, processedImages := totalImages,
              successfulImages := 0, fallbackImages := 0, failedImages := 0,
              errors := errs }), none)

/-- `executeTransfer` (transfer.ts lines 98-155): reject non-pending jobs;
fail immediately (without touching progress) when the user's tokens are
absent; otherwise mark the job running, validate tokens, run the dry or
actual transfer, and either mark the job completed or — in the catch — append
a `general_error` carrying the thrown message to the stored progress and mark
the job failed. -/
def executeTransfer (eff : TransferEffects) (cancelAfter : Nat → Bool)
    (job : TransferJob) (tokensPresent : Bool) (st : RunState) :
    RunState × Option String :=
  if st.db.status ≠ .pending then (st, some "Transfer job is not in pending status")
  else if ¬ tokensPresent then
    (updateTransferJobStatus st .failed none, some "User authentication tokens not found")
  else
    let st1 := updateTransferJobStatus st .running none
    let attempt : RunState × Option String :=
      match eff.googleTokensE with
      | .error e => (st1, some e)
      | .ok _ =>
        match eff.smartsheetTokensE with
        | .error e => (st1, some e)
        | .ok _ =>
          if job.dryRun then performDryRun eff job st1
          else performActualTransfer eff cancelAfter job st1
    match attempt with
    | (st2, none) => (updateTransferJobStatus st2 .completed none, none)
    | (st2, some e) =>
      let updatedProgress :=
        { st2.db.progress with
          errors := st2.db.progress.errors ++ [⟨.generalError, e⟩] }
      (updateTransferJobStatus st2 .failed (some updatedProgress), some e)

/-! ## Helper lemmas -/

/-- Count of one outcome in an outcome list. -/
def countOutcome (o : ImageOutcome) (l : List ImageOutcome) : Nat :=
  l.countP (fun x => x = o)

theorem countOutcome_partition (l : List ImageOutcome) :
    countOutcome .successfulImage l + countOutcome .fallbackLink l
      + countOutcome .failedImage l = l.length := by
  induction l with
  | nil => rfl
  | cons o rest ih =>
    cases o <;> simp [countOutcome, List.countP_cons] at ih ⊢ <;> omega

theorem processImageQueueGo_spec (insertedRows : List InsertedRow)
    (attachOk fallbackOk : Nat → Bool) (queue : List ImageQueueEntry) :
    ∀ (k : Nat) (acc : ImageQueueCounters),
      processImageQueueGo insertedRows attachOk fallbackOk k queue acc =
        let outs := (queue.enumFrom k).map
          (fun p => imageOutcome insertedRows (attachOk p.1) (fallbackOk p.1) p.2)
        ⟨acc.successful + countOutcome .successfulImage outs,
         acc.failed + countOutcome .failedImage outs,
         acc.fallbacks + countOutcome .fallbackLink outs⟩ := by
  induction queue with
  | nil => intro k acc; simp [processImageQueueGo, countOutcome]
  | cons item rest ih =>
    intro k acc
    rw [processImageQueueGo, ih]
    rcases h : imageOutcome insertedRows (attachOk k) (fallbackOk k) item <;>
      simp [processImageItem, h, List.enumFrom_cons, countOutcome, List.countP_cons] <;>
      omega

theorem addRowsGo_nil {Row : Type} (api : List Row → Except String (List InsertedRow))
    (fuel i : Nat) (acc : AddRowsResult) : addRowsGo api fuel i [] acc = acc := by
  cases fuel <;> rfl

theorem getCachedImage_after_cacheImage (cache : List ImageCacheEntry)
    (h imageId url : String) :
    getCachedImage (cacheImage cache h imageId url) h = some ⟨h, imageId, url⟩ := by
  induction cache with
  | nil => simp [getCachedImage, cacheImage, List.find?]
  | cons e rest ih =>
    by_cases he : e.hash = h <;>
      simp_all [getCachedImage, cacheImage, List.find?_cons, List.filter_cons, he]

theorem fixColumnMappingsGo_idem (columns : List SmartsheetColumn) :
    ∀ (mappings : List ColumnMapping) (index : Nat) (fixed : List ColumnMapping),
      fixColumnMappingsGo columns index mappings = .ok fixed →
      fixColumnMappingsGo columns index fixed = .ok fixed := by
  intro mappings
  induction mappings with
  | nil =>
    intro index fixed hfix
    injection hfix with h
    subst h
    rfl
  | cons m rest ih =>
    intro index fixed hfix
    rw [fixColumnMappingsGo] at hfix
    rcases hcol : columns.get? index with _ | col <;> rw [hcol] at hfix
    · exact absurd hfix (by simp)
    · rcases hrest : fixColumnMappingsGo columns (index + 1) rest with e | rest' <;>
        rw [hrest] at hfix <;> simp [Except.map] at hfix
      subst hfix
      rw [fixColumnMappingsGo, hcol, ih (index + 1) rest' hrest]
      rfl

theorem fixColumnMappingsGo_error (columns : List SmartsheetColumn) :
    ∀ (mappings : List ColumnMapping) (index : Nat),
      columns.length < index + mappings.length → 0 < mappings.length →
      fixColumnMappingsGo columns index mappings = .error columnCountMismatchMsg := by
  intro mappings
  induction mappings with
  | nil => intro index _ hpos; exact absurd hpos (by simp)
  | cons m rest ih =>
    intro index hlt _
    rw [fixColumnMappingsGo]
    rcases hcol : columns.get? index with _ | col
    · rfl
    · have hidx : index < columns.length := by
        rcases List.get?_eq_some.mp hcol with ⟨hb, _⟩; exact hb
      have := ih (index + 1) (by simp at hlt ⊢; omega) (by simp at hlt ⊢; omega)
      rw [this]
      rfl

/-! ## Claim C1 -/

/-- Claim C1: in every run of the image fallback pipeline
(`processImageQueue`) over a batch's queued images, each queued image
resolves to exactly one of three mutually exclusive outcomes — the counters
returned are exactly the outcome counts over the queue — and
`successful + fallbacks + failed` equals the number of queued images. -/
theorem imageQueue_outcome_partition (imageQueue : List ImageQueueEntry)
    (insertResult : AddRowsResult) (attachOk fallbackOk : Nat → Bool) :
    let c := processImageQueue imageQueue insertResult attachOk fallbackOk
    let outs := queueOutcomes insertResult.result attachOk fallbackOk imageQueue
    c.successful = countOutcome .successfulImage outs
    ∧ c.fallbacks = countOutcome .fallbackLink outs
    ∧ c.failed = countOutcome .failedImage outs
    ∧ c.successful + c.fallbacks + c.failed = imageQueue.length := by
  have hgo := processImageQueueGo_spec insertResult.result attachOk fallbackOk imageQueue 0
    ⟨0, 0, 0⟩
  have hpart := countOutcome_partition
    (queueOutcomes insertResult.result attachOk fallbackOk imageQueue)
  have hlen : (queueOutcomes insertResult.result attachOk fallbackOk imageQueue).length
      = imageQueue.length := by
    simp [queueOutcomes]
  simp only [processImageQueue, hgo, queueOutcomes, List.enum] at *
  refine ⟨by simp, by simp, by simp, by omega⟩

/-! ## Claim C2 -/

/-- Claim C2: for a successfully inserted batch (at most the 100-row inner
chunk size, which covers every 50-row orchestrator batch), `addRowsToSheet`
returns the destination row list exactly as the ordered insert response, so
the Nth recorded row identifier corresponds to the Nth submitted row; and the
image pipeline resolves each queued entry at exactly that positional index
(`resolvedInsertedRow`).  `hcontract` is the consumed-interface contract that
the insert call answers with one assigned row per submitted row, in
submission order. -/
theorem addRowsToSheet_preserves_order {Row : Type}
    (api : List Row → Except String (List InsertedRow)) (rows : List Row)
    (ids : List InsertedRow)
    (hlen : rows.length ≤ addRowsBatchSize)
    (hapi : api rows = .ok ids)
    (hcontract : ids.length = rows.length) :
    let res := addRowsToSheet api rows
    res.result = ids ∧ res.success = rows.length ∧ res.failed = 0 ∧ res.errors = []
    ∧ (∀ n, res.result.get? n = ids.get? n)
    ∧ (∀ entry : ImageQueueEntry,
        resolvedInsertedRow res.result entry = ids.get? entry.rowIndex) := by
  rcases hrows : rows with _ | ⟨r, rest⟩
  · subst hrows
    have hids : ids = [] := List.length_eq_zero.mp (by simpa using hcontract)
    subst hids
    exact ⟨rfl, rfl, rfl, rfl, fun n => rfl, fun entry => rfl⟩
  · subst hrows
    have htake : (r :: rest).take addRowsBatchSize = r :: rest :=
      List.take_of_length_le hlen
    have hdrop : (r :: rest).drop addRowsBatchSize = [] :=
      List.drop_eq_nil_of_le hlen
    have hres : addRowsToSheet api (r :: rest)
        = ⟨ids.length, 0, [], ids⟩ := by
      rw [addRowsToSheet]
      show addRowsGo api (rest.length + 1) 0 (r :: rest) ⟨0, 0, [], []⟩ = _
      rw [addRowsGo]
      simp only [htake, hdrop, hapi, addRowsGo_nil]
      simp
    rw [hres]
    exact ⟨rfl, by simpa using hcontract, rfl, rfl, fun n => rfl, fun entry => rfl⟩

/-- Witness for C2 at a concrete two-row batch. -/
theorem addRowsToSheet_preserves_order_witness :
    let api : List String → Except String (List InsertedRow) :=
      fun rs => .ok (rs.map (fun _ => ⟨some 7⟩))
    let rows : List String := ["r1", "r2"]
    let ids : List InsertedRow := [⟨some 7⟩, ⟨some 7⟩]
    let res := addRowsToSheet api rows
    res.result = ids ∧ res.success = rows.length ∧ res.failed = 0 ∧ res.errors = []
    ∧ (∀ n, res.result.get? n = ids.get? n)
    ∧ (∀ entry : ImageQueueEntry,
        resolvedInsertedRow res.result entry = ids.get? entry.rowIndex) :=
  addRowsToSheet_preserves_order _ _ _ (by decide) rfl rfl

/-! ## Claim C8 -/

/-- Claim C8: the column-mapping reconciliation against a fixed destination
schema is idempotent — whenever `fixColumnMappings mappings columns` succeeds
with `fixed`, running the rewrite again on `fixed` succeeds and is a no-op,
so applying the rewrite twice equals applying it once. -/
theorem fixColumnMappings_idempotent (mappings fixed : List ColumnMapping)
    (columns : List SmartsheetColumn)
    (hfix : fixColumnMappings mappings columns = .ok fixed) :
    fixColumnMappings fixed columns = .ok fixed :=
  fixColumnMappingsGo_idem columns mappings 0 fixed hfix

/-- Witness for C8 at a concrete two-mapping, two-column instance. -/
theorem fixColumnMappings_idempotent_witness :
    fixColumnMappings
      [⟨"A", 5, .text, none⟩, ⟨"B", 6, .text, none⟩]
      [⟨11⟩, ⟨12⟩]
    = .ok [⟨"A", 11, .text, none⟩, ⟨"B", 12, .text, none⟩] :=
  fixColumnMappings_idempotent
    [⟨"A", 11, .text, none⟩, ⟨"B", 12, .text, none⟩]
    [⟨"A", 11, .text, none⟩, ⟨"B", 12, .text, none⟩]
    [⟨11⟩, ⟨12⟩] rfl

/-! ## Claim C10 -/

/-- Claim C10: if one `uploadImage` call on a buffer succeeds with some image
id, a second call with a byte-identical buffer returns that id from the cache
and leaves the state untouched — in particular `uploadsPerformed` does not
change, so no second upload is performed — whatever the second call's network
would have answered. -/
theorem uploadImage_cached_second_call (hashOf : List Nat → String)
    (api1 api2 : Except String String) (st0 st1 : UploadState)
    (imageBuffer : List Nat) (filename1 filename2 : String) (imageId : String)
    (hfirst : uploadImage hashOf api1 st0 imageBuffer filename1 = (.ok imageId, st1)) :
    uploadImage hashOf api2 st1 imageBuffer filename2 = (.ok imageId, st1) := by
  simp only [uploadImage] at hfirst ⊢
  rcases hcache : getCachedImage st0.cache (hashOf imageBuffer) with _ | cached
  · rw [hcache] at hfirst
    rcases hapi : api1 with e | freshId <;> rw [hapi] at hfirst <;>
      simp only [Prod.mk.injEq] at hfirst
    · exact absurd hfirst.1 (by simp)
    · obtain ⟨hid, hst⟩ := hfirst
      have hid' : freshId = imageId := by simpa using hid
      subst hid'
      rw [← hst]
      simp only [getCachedImage_after_cacheImage]
  · rw [hcache] at hfirst
    simp only [Prod.mk.injEq] at hfirst
    obtain ⟨hid, hst⟩ := hfirst
    have hid' : cached.smartsheetImageId = imageId := by simpa using hid
    subst hst
    rw [hcache]
    simp [hid']

/-- Witness for C10: a concrete first upload followed by a cache hit. -/
theorem uploadImage_cached_second_call_witness :
    uploadImage (fun _ => "h") (.error "network down")
      ⟨[⟨"h", "img1", "f.png"⟩], 1⟩ [1, 2, 3] "g.png"
    = (.ok "img1", ⟨[⟨"h", "img1", "f.png"⟩], 1⟩) :=
  uploadImage_cached_second_call (fun _ => "h") (.ok "img1") (.error "network down")
    ⟨[], 0⟩ ⟨[⟨"h", "img1", "f.png"⟩], 1⟩ [1, 2, 3] "f.png" "g.png" "img1" rfl

/-! ## Claim C6 -/

set_option maxRecDepth 4000 in
/-- Counterexample to claim C7 as stated: the cell with formula
`=IMAGE("https://storage.example/file/d/ABC123")` classifies as an image, but
its source file identifier is not extracted (`imageId = none`, not
`some "ABC123"`), because the id regex only recognises
`drive.google.com/file/d/` and `id=` URL shapes. -/
theorem image_formula_sourceId_counterexample :
    ¬ (let c := processCellData
        ⟨"", "=IMAGE(\"https://storage.example/file/d/ABC123\")", none⟩
       c.isImage = true ∧ c.imageId = some "ABC123") := by
  decide

set_option maxRecDepth 4000 in
/-- Claim C7 amended: the `=IMAGE("https://storage.example/file/d/ABC123")`
cell classifies as `isImage = true` with the embedded URL kept and no source
id; the stable identifier `ABC123` is extracted exactly when the URL matches
a known drive shape, as with
`=IMAGE("https://drive.google.com/file/d/ABC123")`. -/
theorem image_formula_classification :
    (let c := processCellData
        ⟨"", "=IMAGE(\"https://storage.example/file/d/ABC123\")", none⟩
     c.isImage = true
     ∧ c.imageUrl = some "https://storage.example/file/d/ABC123"
     ∧ c.imageId = none)
    ∧ (let c := processCellData
        ⟨"", "=IMAGE(\"https://drive.google.com/file/d/ABC123\")", none⟩
       c.isImage = true ∧ c.imageId = some "ABC123") := by
  decide

/-! ## Claim C9 -/

/-- Existence of a type-shift column below the candidate row. -/
def hasTypeShift (isNum : String → Bool) (headers nextRow : List String) : Prop :=
  ∃ i ∈ List.range (min headers.length nextRow.length),
    typeShiftCond isNum headers nextRow i = true

instance (isNum : String → Bool) (headers nextRow : List String) :
    Decidable (hasTypeShift isNum headers nextRow) := by
  unfold hasTypeShift; infer_instance

theorem nextRowScore_of_shift (isNum : String → Bool) (headers nextRow : List String)
    (hshift : hasTypeShift isNum headers nextRow) :
    5 ≤ nextRowScore isNum headers nextRow := by
  obtain ⟨i, hmem, hcond⟩ := hshift
  have hne : nextRow ≠ [] := by
    intro h
    subst h
    simp at hmem
  have hcount : 0 < (List.range (min headers.length nextRow.length)).countP
      (typeShiftCond isNum headers nextRow) :=
    List.countP_pos_iff.mpr ⟨i, hmem, hcond⟩
  have hguard : nextRowGuard headers nextRow i = true := by
    have h2 := hcond
    simp only [typeShiftCond, Bool.and_eq_true] at h2
    exact h2.1.1
  have hany : (List.range (min headers.length nextRow.length)).any
      (nextRowGuard headers nextRow) = true :=
    List.any_eq_true.mpr ⟨i, hmem, hguard⟩
  unfold nextRowScore
  simp only [hne, ne_eq, not_false_eq_true, if_pos, hany, if_true]
  omega

theorem nextRowScore_of_no_shift (isNum : String → Bool) (headers nextRow : List String)
    (hnone : ¬ hasTypeShift isNum headers nextRow) :
    nextRowScore isNum headers nextRow ≤ 3 := by
  unfold nextRowScore
  by_cases hne : nextRow = []
  · simp [hne]
  · have hcount : (List.range (min headers.length nextRow.length)).countP
        (typeShiftCond isNum headers nextRow) = 0 := by
      rw [List.countP_eq_zero]
      intro i hi
      exact fun hc => hnone ⟨i, hi, hc⟩
    simp only [hne, ne_eq, not_false_eq_true, if_pos, hcount]
    split <;> omega

/-- Claim C9: if some cell of the row below a candidate row is numeric
directly under a textual, non-generic label (a type shift), the candidate's
header score strictly exceeds the score of the same candidate row over data
in which the row below exhibits no type shift.  The opaque `Number` parse and
the curated vocabulary set enter as the oracles `isNum` and `likelyHeader`;
all score components other than the next-row analysis depend only on the
candidate row itself and cancel. -/
theorem scoreHeaderRow_typeShift_strict (isNum likelyHeader : String → Bool)
    (headers : List String) (allRows allRows' : List (List String))
    (rowIndex : Nat) (nextRow nextRow' : List String)
    (hb : rowIndex + 1 < allRows.length)
    (hn : allRows.getD (rowIndex + 1) [] = nextRow)
    (hb' : rowIndex + 1 < allRows'.length)
    (hn' : allRows'.getD (rowIndex + 1) [] = nextRow')
    (hshift : hasTypeShift isNum headers nextRow)
    (hnone : ¬ hasTypeShift isNum headers nextRow') :
    scoreHeaderRow isNum likelyHeader headers allRows' rowIndex
      < scoreHeaderRow isNum likelyHeader headers allRows rowIndex := by
  have h1 := nextRowScore_of_shift isNum headers nextRow hshift
  have h2 := nextRowScore_of_no_shift isNum headers nextRow' hnone
  unfold scoreHeaderRow
  simp only [hb, hb', if_pos, hn, hn']
  omega

/-- Witness for C9: a one-column "Name" header, scored over data with the
number 12 below versus data with the text "abc" below; the `Number` oracle is
instantiated with an all-digits test. -/
theorem scoreHeaderRow_typeShift_strict_witness :
    scoreHeaderRow (fun s => !s.data.isEmpty && s.data.all Char.isDigit) (fun _ => false)
        ["Name"] [["Name"], ["abc"]] 0
      < scoreHeaderRow (fun s => !s.data.isEmpty && s.data.all Char.isDigit) (fun _ => false)
        ["Name"] [["Name"], ["12"]] 0 :=
  scoreHeaderRow_typeShift_strict
    (fun s => !s.data.isEmpty && s.data.all Char.isDigit) (fun _ => false)
    ["Name"] [["Name"], ["12"]] [["Name"], ["abc"]] 0 ["12"] ["abc"]
    (by decide) (by decide) (by decide) (by decide) (by decide) (by decide)

/-! ## Claim C3 -/

/-- Claim C3: when the destination sheet has fewer columns than the job
declares column mappings, `executeTransfer` fails fast with the explicit
count-mismatch error before any row insertion is attempted — the job ends
`failed` with a `general_error` carrying the count-mismatch message, and the
trace contains no destination batch submission, i.e. zero rows are written. -/
theorem executeTransfer_schema_mismatch_fails_fast
    (eff : TransferEffects) (cancelAfter : Nat → Bool) (job : TransferJob)
    (st0 : RunState) (k : Nat)
    (googleData : List (String × List (List GoogleCellValue)))
    (columns : List SmartsheetColumn)
    (hpend : st0.db.status = .pending) (htrace : st0.trace = [])
    (hdry : job.dryRun = false)
    (hg : eff.googleTokensE = .ok ()) (hs : eff.smartsheetTokensE = .ok ())
    (hh : resolveHeaderRow job eff = .ok k)
    (hd : eff.googleDataE = .ok googleData)
    (hc : eff.sheetColumnsE = .ok columns)
    (hlt : columns.length < job.columnMappings.length) :
    let res := executeTransfer eff cancelAfter job true st0
    res.1.db.status = .failed
    ∧ (⟨.generalError, columnCountMismatchMsg⟩ : TransferErrorRec)
        ∈ res.1.db.progress.errors
    ∧ res.1.trace.countP isBatchSubmitEv = 0 := by
  have hfix : fixColumnMappings job.columnMappings columns
      = .error columnCountMismatchMsg :=
    fixColumnMappingsGo_error columns job.columnMappings 0 (by omega) (by omega)
  simp only [executeTransfer, performActualTransfer, fixColumnMappings] at *
  simp [hpend, hdry, hg, hs, hh, hd, hc, hfix, updateTransferJobStatus, htrace,
    isBatchSubmitEv]

/-- Witness for C3: a concrete pending job declaring two mappings against a
one-column destination sheet. -/
theorem executeTransfer_schema_mismatch_fails_fast_witness :
    let eff : TransferEffects :=
      ⟨.ok (), .ok (), .ok 0, .ok [("Tab1", [[], []])], .ok [], .ok [⟨100⟩],
       fun _ rows => .ok (rows.map (fun _ => ⟨some 7⟩)),
       fun _ _ => true, fun _ _ => true⟩
    let job : TransferJob :=
      ⟨[⟨"A", 0, .text, none⟩, ⟨"B", 0, .text, none⟩], some 0, false⟩
    let st0 : RunState := ⟨⟨.pending, ⟨0, 0, 0, 0, 0, 0, 0, []⟩⟩, []⟩
    let res := executeTransfer eff (fun _ => false) job true st0
    res.1.db.status = .failed
    ∧ (⟨.generalError, columnCountMismatchMsg⟩ : TransferErrorRec)
        ∈ res.1.db.progress.errors
    ∧ res.1.trace.countP isBatchSubmitEv = 0 :=
  executeTransfer_schema_mismatch_fails_fast _ _ _ _ 0 [("Tab1", [[], []])] [⟨100⟩]
    rfl rfl rfl rfl rfl rfl rfl rfl (by decide)

/-! ## Claim C5 -/

/-- Counterexample to claim C5 as stated: when the user's authentication
tokens are absent, `executeTransfer` marks the job `failed` without appending
any error, so the terminal failed state carries no `general_error` entry. -/
theorem failed_without_general_error_counterexample :
    let eff : TransferEffects :=
      ⟨.ok (), .ok (), .ok 0, .ok [], .ok [], .ok [],
       fun _ _ => .ok [], fun _ _ => true, fun _ _ => true⟩
    let st0 : RunState := ⟨⟨.pending, ⟨0, 0, 0, 0, 0, 0, 0, []⟩⟩, []⟩
    let res := executeTransfer eff (fun _ => false) ⟨[], some 0, false⟩ false st0
    res.1.db.status = .failed ∧ res.1.db.progress.errors = [] :=
  ⟨rfl, rfl⟩

/-- Claim C5 amended: whenever `executeTransfer`, invoked on a pending job
whose user tokens are present, leaves the job in the terminal failed status,
the job's progress errors contain at least one `general_error` entry
explaining the abort cause.  (The missing-tokens precheck, excluded here, is
the one failed path that appends nothing — see the counterexample.) -/
theorem mainPath_failed_has_general_error
    (eff : TransferEffects) (cancelAfter : Nat → Bool) (job : TransferJob)
    (st0 : RunState) (hpend : st0.db.status = .pending)
    (hfail : (executeTransfer eff cancelAfter job true st0).1.db.status = .failed) :
    ∃ e ∈ (executeTransfer eff cancelAfter job true st0).1.db.progress.errors,
      e.etype = .generalError := by
  simp only [executeTransfer, hpend] at hfail ⊢
  rcases hA : (match eff.googleTokensE with
    | .error e => (updateTransferJobStatus st0 .running none, some e)
    | .ok _ =>
      match eff.smartsheetTokensE with
      | .error e => (updateTransferJobStatus st0 .running none, some e)
      | .ok _ =>
        if job.dryRun then performDryRun eff job (updateTransferJobStatus st0 .running none)
        else performActualTransfer eff cancelAfter job
          (updateTransferJobStatus st0 .running none)) with ⟨st2, o⟩
  rcases o with _ | e <;> rw [hA] at hfail ⊢ <;>
    simp [updateTransferJobStatus] at hfail ⊢
  exact ⟨⟨.generalError, e⟩, by simp, rfl⟩

/-- Witness for the amended C5: a concrete run whose header detection call
fails, driving the job to `failed` with a `general_error` entry. -/
theorem mainPath_failed_has_general_error_witness :
    let eff : TransferEffects :=
      ⟨.ok (), .ok (), .error "header detection failed", .ok [], .ok [], .ok [],
       fun _ _ => .ok [], fun _ _ => true, fun _ _ => true⟩
    let st0 : RunState := ⟨⟨.pending, ⟨0, 0, 0, 0, 0, 0, 0, []⟩⟩, []⟩
    ∃ e ∈ (executeTransfer eff (fun _ => false) ⟨[], none, false⟩ true st0).1.db.progress.errors,
      e.etype = .generalError :=
  mainPath_failed_has_general_error _ _ _ _ rfl rfl

/-! ## Claim C4 -/

/-- True when the trace contains a cancelled-status write followed (later)
by a destination batch submission — the behaviour claim C4 rules out. -/
def cancelThenSubmit : List TransferEvent → Bool
  | [] => false
  | .statusUpdate .cancelled :: rest => rest.any isBatchSubmitEv || cancelThenSubmit rest
  | _ :: rest => cancelThenSubmit rest

set_option maxRecDepth 8000 in
/-- Counterexample to claim C4 as stated: in a concrete two-batch run whose
cancellation request lands at the first batch boundary, the job's status
becomes cancelled and the second batch is nevertheless submitted to the
destination (the batch loop never reads the cancellation flag). -/
theorem cancellation_not_checked_counterexample :
    let eff : TransferEffects :=
      ⟨.ok (), .ok (), .ok 0,
       .ok [("Tab1", List.replicate 52
          [(⟨"x", none, none, false, none, none⟩ : GoogleCellValue)])],
       .ok [], .ok [⟨100⟩],
       fun _ rows => .ok (rows.map (fun _ => ⟨some 7⟩)),
       fun _ _ => true, fun _ _ => true⟩
    let job : TransferJob := ⟨[⟨"A", 0, .text, none⟩], some 0, false⟩
    let st0 : RunState := ⟨⟨.pending, ⟨0, 0, 0, 0, 0, 0, 0, []⟩⟩, []⟩
    cancelThenSubmit (executeTransfer eff (fun b => b = 0) job true st0).1.trace
      = true := by
  decide

/-- The observable loop components that do not depend on the cancellation
schedule: every counter, the error list, the batch number, and the
subsequence of destination submissions in the trace. -/
def LoopSync (s t : BatchLoopState) : Prop :=
  s.processedRows = t.processedRows ∧ s.processedImages = t.processedImages
  ∧ s.successfulImages = t.successfulImages ∧ s.fallbackImages = t.fallbackImages
  ∧ s.failedImages = t.failedImages ∧ s.errors = t.errors ∧ s.batchNo = t.batchNo
  ∧ s.run.trace.filter isBatchSubmitEv = t.run.trace.filter isBatchSubmitEv

theorem loopSync_refl (s : BatchLoopState) : LoopSync s s :=
  ⟨rfl, rfl, rfl, rfl, rfl, rfl, rfl, rfl⟩

theorem processBatch_sync (eff : TransferEffects) (ca1 ca2 : Nat → Bool)
    (tR tI : Nat) (m : List ColumnMapping) (batch : List (List GoogleCellValue))
    {s t : BatchLoopState} (h : LoopSync s t) :
    LoopSync (processBatch eff ca1 tR tI m batch s)
      (processBatch eff ca2 tR tI m batch t) := by
  obtain ⟨run_s, pr_s, pi_s, si_s, fb_s, fi_s, er_s, bn_s⟩ := s
  obtain ⟨run_t, pr_t, pi_t, si_t, fb_t, fi_t, er_t, bn_t⟩ := t
  obtain ⟨h1, h2, h3, h4, h5, h6, h7, h8⟩ := h
  simp only at h1 h2 h3 h4 h5 h6 h7 h8
  subst h1 h2 h3 h4 h5 h6 h7
  unfold processBatch
  rcases hcb : convertBatchGo m 0 batch with ⟨rows, queue, imgCount⟩
  by_cases hr : rows = [] <;>
    by_cases hc1 : ca1 bn_s <;> by_cases hc2 : ca2 bn_s <;>
      simp [LoopSync, hcb, hr, hc1, hc2, updateTransferJobStatus, cancelTransfer,
        List.filter_append, isBatchSubmitEv, h8]

theorem foldl_processBatch_sync (eff : TransferEffects) (ca1 ca2 : Nat → Bool)
    (tR tI : Nat) (m : List ColumnMapping)
    (batches : List (List (List GoogleCellValue))) :
    ∀ {s t : BatchLoopState}, LoopSync s t →
      LoopSync
        (batches.foldl (fun s batch => processBatch eff ca1 tR tI m batch s) s)
        (batches.foldl (fun s batch => processBatch eff ca2 tR tI m batch s) t) := by
  induction batches with
  | nil => intro s t h; simpa using h
  | cons batch rest ih =>
    intro s t h
    simp only [List.foldl_cons]
    exact ih (processBatch_sync eff ca1 ca2 tR tI m batch h)

theorem processTab_sync (eff : TransferEffects) (ca1 ca2 : Nat → Bool)
    (tR tI : Nat) (m : List ColumnMapping)
    (tabData : List (List GoogleCellValue)) {s t : BatchLoopState}
    (h : LoopSync s t) :
    LoopSync (processTab eff ca1 tR tI m tabData s)
      (processTab eff ca2 tR tI m tabData t) := by
  unfold processTab
  by_cases hlen : tabData.length ≤ 1
  · simpa [hlen] using h
  · simpa [hlen] using foldl_processBatch_sync eff ca1 ca2 tR tI m
      (chunksOf transferBatchSize (tabData.drop 1)) h

theorem foldl_processTab_sync (eff : TransferEffects) (ca1 ca2 : Nat → Bool)
    (tR tI : Nat) (m : List ColumnMapping)
    (tabs : List (String × List (List GoogleCellValue))) :
    ∀ {s t : BatchLoopState}, LoopSync s t →
      LoopSync
        (tabs.foldl (fun s tab => processTab eff ca1 tR tI m tab.2 s) s)
        (tabs.foldl (fun s tab => processTab eff ca2 tR tI m tab.2 s) t) := by
  induction tabs with
  | nil => intro s t h; simpa using h
  | cons tab rest ih =>
    intro s t h
    simp only [List.foldl_cons]
    exact ih (processTab_sync eff ca1 ca2 tR tI m tab.2 h)

theorem performActualTransfer_sync (eff : TransferEffects) (ca1 ca2 : Nat → Bool)
    (job : TransferJob) (st : RunState) :
    (performActualTransfer eff ca1 job st).2 = (performActualTransfer eff ca2 job st).2
    ∧ (performActualTransfer eff ca1 job st).1.trace.filter isBatchSubmitEv
      = (performActualTransfer eff ca2 job st).1.trace.filter isBatchSubmitEv := by
  unfold performActualTransfer
  rcases hh : resolveHeaderRow job eff with e | k <;> simp only [hh]
  · simp
  rcases hd : eff.googleDataE with e | googleData <;> simp only [hd]
  · simp
  rcases hc : eff.sheetColumnsE with e | columns <;> simp only [hc]
  · simp
  rcases hfix : fixColumnMappings job.columnMappings columns with e | fixedMappings <;>
    simp only [hfix]
  · simp
  refine ⟨trivial, ?_⟩
  exact (foldl_processTab_sync eff ca1 ca2 _ _ fixedMappings googleData
    (loopSync_refl _)).2.2.2.2.2.2.2

set_option maxRecDepth 2000 in
/-- Claim C4 amended: an external cancellation request (`cancelTransfer`)
sets a running job's stored status to cancelled and leaves any other status
unchanged; however `executeTransfer` never checks the cancellation flag
between batches — the subsequence of destination batch submissions in the
trace is identical under every cancellation schedule, so a cancelled status
does not stop further batches from being submitted. -/
theorem cancelTransfer_sets_flag_but_loop_ignores_it :
    (∀ st : RunState, (cancelTransfer st).db.status =
      (if st.db.status = .running then .cancelled else st.db.status))
    ∧ ∀ (eff : TransferEffects) (ca1 ca2 : Nat → Bool) (job : TransferJob)
        (tokensPresent : Bool) (st0 : RunState),
        (executeTransfer eff ca1 job tokensPresent st0).1.trace.filter isBatchSubmitEv
          = (executeTransfer eff ca2 job tokensPresent st0).1.trace.filter
              isBatchSubmitEv := by
  constructor
  · intro st
    unfold cancelTransfer
    split <;> simp_all [updateTransferJobStatus]
  · intro eff ca1 ca2 job tokensPresent st0
    unfold executeTransfer
    by_cases hpend : st0.db.status ≠ .pending
    · simp [hpend]
    · by_cases htok : tokensPresent <;> simp only [hpend, htok, if_false, if_true,
        not_true, not_false_eq_true, ite_true, ite_false]
      · rcases eff.googleTokensE with e | u
        · rfl
        · rcases eff.smartsheetTokensE with e | u2
          · rfl
          · by_cases hdry : job.dryRun
            · simp [hdry]
            · simp only [hdry, if_false, ite_false]
              have hsync := performActualTransfer_sync eff ca1 ca2 job
                (updateTransferJobStatus st0 .running none)
              rcases hA1 : performActualTransfer eff ca1 job
                  (updateTransferJobStatus st0 .running none) with ⟨stA, oA⟩
              rcases hA2 : performActualTransfer eff ca2 job
                  (updateTransferJobStatus st0 .running none) with ⟨stB, oB⟩
              rw [hA1, hA2] at hsync
              obtain ⟨ho, htr⟩ := hsync
              simp only at ho htr
              rcases oA with _ | e <;> rcases oB with _ | e2 <;>
                simp_all [updateTransferJobStatus, List.filter_append, isBatchSubmitEv]
      · rfl

end G2S
